import Mathlib

/-!
Shallow embedding of `src/index.js` of the scm-gitlab adapter, together with
proofs about the claims of its specification.

JavaScript strings are modelled as Lean `String` (a list of characters);
JSON values (HTTP response bodies) as the inductive `Json` below; thrown
JavaScript exceptions as the `JsError` type, and functions that can throw as
functions into `Except JsError _`.  An operation that performs network calls
through the circuit breaker is modelled as a function that also receives the
response the breaker would resolve with, and that returns the list of breaker
requests it actually issued (in order) next to its outcome, so that
"no request was issued" is expressible as an empty list.
-/

/-- A JSON value, as delivered by the `request` library for a `json: true`
call.  `num` is restricted to integers, which covers every value the claims
touch (HTTP status codes, project ids). -/
inductive Json where
  | null : Json
  | bool (b : Bool) : Json
  | num (n : Int) : Json
  | str (s : String) : Json
  | arr (elems : List Json) : Json
  | obj (fields : List (String × Json)) : Json

/-- Own-property lookup on a JSON object: `none` plays the role of the
JavaScript `undefined` that property access yields on a missing key or on a
non-object primitive (property access on a string or number is legal in
JavaScript and yields `undefined` for unknown keys). -/
def lookupField : List (String × Json) → String → Option Json
  | [], _ => none
  | (k, v) :: rest, key => if k = key then some v else lookupField rest key

/-- JavaScript property read `j[key]` for those receivers on which it does not
throw; `Json.null` throws instead, see `jsGetMember`. -/
def jsGet (j : Json) (key : String) : Option Json :=
  match j with
  | Json.obj kvs => lookupField kvs key
  | _ => none

/-- A thrown JavaScript exception: the `TypeError` of a bad member access or of
calling a non-function, the `ReferenceError` of an undeclared identifier, and
`Error` objects created with `new Error(message)`. -/
inductive JsError where
  | typeError : JsError
  | referenceError : JsError
  | error (message : String) : JsError
deriving DecidableEq

/-- Raw JavaScript member access `j.key`: throws a `TypeError` when the
receiver is `null`, otherwise behaves like `jsGet`. -/
def jsGetMember (j : Json) (key : String) : Except JsError (Option Json) :=
  match j with
  | Json.null => Except.error JsError.typeError
  | Json.obj kvs => Except.ok (lookupField kvs key)
  | _ => Except.ok none

/-- `Hoek.reach(obj, 'a.b.c', { default: d })` walks the chain of keys and
falls back to the default as soon as a step is missing; unlike a raw member
access it never throws.  `none` here means "use the default". -/
def hoekReach (j : Json) : List String → Option Json
  | [] => some j
  | k :: rest =>
    match jsGet j k with
    | none => none
    | some v => hoekReach v rest

mutual

/-- String conversion of a JavaScript value as performed by a template
literal (the semantics of `String(v)`).  Array elements convert
element-wise with `null` rendered empty, objects render as
`[object Object]`. -/
def jsToString : Json → String
  | Json.null => "null"
  | Json.bool b => if b then "true" else "false"
  | Json.num n => toString n
  | Json.str s => s
  | Json.obj _ => "[object Object]"
  | Json.arr xs => String.intercalate "," (jsToStringList xs)

/-- Element-wise conversion used by `Array.prototype.toString` (a `join(',')`
which renders `null` elements as the empty string). -/
def jsToStringList : List Json → List String
  | [] => []
  | Json.null :: rest => "" :: jsToStringList rest
  | j :: rest => jsToString j :: jsToStringList rest
end

/-- Hexadecimal digit (lower case), used for JSON string escapes. -/
def hexDigit (n : Nat) : Char :=
  if n < 10 then Char.ofNat (48 + n) else Char.ofNat (87 + n)

/-- Escape of a single character inside a JSON string literal, as produced by
`JSON.stringify`. -/
def escapeChar (c : Char) : List Char :=
  if c = '"' then ['\\', '"']
  else if c = '\\' then ['\\', '\\']
  else if c.toNat = 8 then ['\\', 'b']
  else if c.toNat = 9 then ['\\', 't']
  else if c.toNat = 10 then ['\\', 'n']
  else if c.toNat = 12 then ['\\', 'f']
  else if c.toNat = 13 then ['\\', 'r']
  else if c.toNat < 32 then
    ['\\', 'u', '0', '0', hexDigit (c.toNat / 16), hexDigit (c.toNat % 16)]
  else [c]

/-- JSON string escaping of `JSON.stringify`. -/
def jsonEscape (s : String) : String :=
  String.mk (s.data.foldr (fun c acc => escapeChar c ++ acc) [])

mutual

/-- `JSON.stringify` on the modelled JSON values. -/
def jsonStringify : Json → String
  | Json.null => "null"
  | Json.bool b => if b then "true" else "false"
  | Json.num n => toString n
  | Json.str s => "\"" ++ jsonEscape s ++ "\""
  | Json.arr xs => "[" ++ String.intercalate "," (jsonStringifyList xs) ++ "]"
  | Json.obj kvs => "\x7b" ++ String.intercalate "," (jsonStringifyFields kvs) ++ "\x7d"

/-- `JSON.stringify` of the elements of an array. -/
def jsonStringifyList : List Json → List String
  | [] => []
  | j :: rest => jsonStringify j :: jsonStringifyList rest

/-- `JSON.stringify` of the fields of an object. -/
def jsonStringifyFields : List (String × Json) → List String
  | [] => []
  | (k, v) :: rest =>
    ("\"" ++ jsonEscape k ++ "\":" ++ jsonStringify v) :: jsonStringifyFields rest

end

/-- An HTTP response as seen by the adapter: the status code and the parsed
JSON body (src 44-47). -/
structure HTTPResponse where
  statusCode : Int
  body : Json

/-- `checkResponseError` (src 51-64): returns normally on a 2xx status code and
otherwise throws `new Error` with the message composed from
`Hoek.reach(response, 'body.error.message', ...)` (falling back to
`SCM service unavailable (<statusCode>).`) and
`Hoek.reach(response, 'body.error.detail.required', ...)` (falling back to
`JSON.stringify(response.body)`).  The two `const` bindings of the source are
inlined into the thrown message. -/
def checkResponseError (response : HTTPResponse) : Except JsError Unit :=
  if 200 ≤ response.statusCode ∧ response.statusCode < 300 then Except.ok ()
  else
    Except.error (JsError.error (
      (match hoekReach response.body ["error", "message"] with
       | some v => jsToString v
       | none => "SCM service unavailable (" ++ toString response.statusCode ++ ").") ++
      " Reason \"" ++
      (match hoekReach response.body ["error", "detail", "required"] with
       | some v => jsToString v
       | none => jsonStringify response.body) ++ "\""))

/-- JavaScript `String.prototype.split` with a single-character separator, on
the character list of the string: `split` of the empty string is `[""]`, and a
separator occurrence always opens a new (possibly empty) field. -/
def splitOnCharAux (sep : Char) : List Char → List (List Char)
  | [] => [[]]
  | c :: rest =>
    if c = sep then [] :: splitOnCharAux sep rest
    else
      match splitOnCharAux sep rest with
      | [] => [[c]]
      | h :: t => (c :: h) :: t

/-- JavaScript `s.split(sep)` for a one-character separator. -/
def jsSplit (sep : Char) (s : String) : List String :=
  (splitOnCharAux sep s.data).map (fun cs => String.mk cs)

/-- The SCM URI encoder: src 196 builds the URI as the template
`hostname:id:branch`, joining the three fields with a colon. -/
def encodeScmUri (host projectId branch : String) : String :=
  host ++ ":" ++ projectId ++ ":" ++ branch

/-- The SCM URI decoder: src 135 (and identically src 375, 414, 447, 480)
destructures `config.scmUri.split(':')` into `[scmHost, scmId, scmBranch]`.
A JavaScript array destructuring pads missing positions with `undefined`
(here `none`) and silently drops extra elements; no error of any kind is
raised. -/
def decodeScmUri (uri : String) : Option String × Option String × Option String :=
  match jsSplit ':' uri with
  | [] => (none, none, none)
  | [a] => (some a, none, none)
  | [a, b] => (some a, some b, none)
  | a :: b :: c :: _ => (some a, some b, some c)

/-- Template-literal interpolation of a possibly-undefined string value
(JavaScript renders `undefined` as the text `undefined`). -/
def optStr : Option String → String
  | none => "undefined"
  | some s => s

/-- Template-literal interpolation of a possibly-undefined JSON value. -/
def optJsonStr : Option Json → String
  | none => "undefined"
  | some j => jsToString j

/-- JavaScript truthiness of an optional string (`undefined` and the empty
string are falsy). -/
def jsTruthyOpt : Option String → Bool
  | none => false
  | some s => if s = "" then false else true

/-- JavaScript `a || b` for a possibly-undefined string `a`. -/
def jsOrString (a : Option String) (b : String) : String :=
  match a with
  | some s => if s = "" then b else s
  | none => b

/-- JavaScript `s.slice(1)`. -/
def jsSlice1 (s : String) : String :=
  String.mk (s.data.drop 1)

/-- Result of a successful `regex.exec` against the checkout-URL pattern:
capture group 1 is the hostname, group 2 the namespace (user), group 3 the
repo, and group 4 the optional `#branchRef` suffix (including the leading
`#`), which is `none` (`undefined`) when the suffix is absent. -/
structure CheckoutMatch where
  hostname : String
  user : String
  repo : String
  branchSuffix : Option String
deriving DecidableEq

/-- Split a character list at its first occurrence of `://`, returning the
part before and the part after, or `none` when `://` does not occur. -/
def splitProto : List Char → Option (List Char × List Char)
  | [] => none
  | c :: rest =>
    if c = ':' ∧ rest.take 2 = ['/', '/'] then some ([], rest.drop 2)
    else
      match splitProto rest with
      | none => none
      | some (a, b) => some (c :: a, b)

/-- Split a character list at its first occurrence of `sep`, returning the
parts before and after, or `none` when `sep` does not occur. -/
def splitFirstAt (sep : Char) : List Char → Option (List Char × List Char)
  | [] => none
  | c :: rest =>
    if c = sep then some ([], rest)
    else
      match splitFirstAt sep rest with
      | none => none
      | some (a, b) => some (c :: a, b)

/-- Match of the path part `host/namespace/repo` of the checkout-URL pattern:
exactly three non-empty slash-separated components. -/
def checkoutPathMatch (path : List Char) (branchTail : Option (List Char)) :
    Option CheckoutMatch :=
  match splitOnCharAux '/' path with
  | [host, user, repo] =>
    if host = [] ∨ user = [] ∨ repo = [] then none
    else
      some { hostname := String.mk host, user := String.mk user,
             repo := String.mk repo,
             branchSuffix := branchTail.map (fun t => String.mk ('#' :: t)) }
  | _ => none

/-- Modelled from the spec: `Schema.config.regex.CHECKOUT_URL` lives in the
external `screwdriver-data-schema` package and is not part of this
repository's source; the spec describes it as "a fixed pattern matching
`protocol://host/namespace/repo#branchRef`" whose branch suffix may be
omitted.  It is modelled as the anchored pattern
`(protocol)://(host)/(namespace)/(repo)(#branchRef)?` where the protocol is a
non-empty run without `:` or `/`, the three path components are non-empty and
contain no `/` (and no `#`, the suffix starting at the first `#`), and the
optional group 4 is `#` followed by at least one character.  `none` models the
`null` that `regex.exec` returns when the pattern does not match. -/
def checkoutUrlExec (url : String) : Option CheckoutMatch :=
  match splitProto url.data with
  | none => none
  | some (proto, rest) =>
    if proto = [] ∨ ':' ∈ proto ∨ '/' ∈ proto then none
    else
      match splitFirstAt '#' rest with
      | none => checkoutPathMatch rest none
      | some (path, after) =>
        if after = [] then none
        else checkoutPathMatch path (some after)

/-- The record built by `getRepoInfo` (src 76-81). -/
structure RepoInfo where
  hostname : String
  repo : String
  branch : String
  username : String
deriving DecidableEq

/-- `getRepoInfo` (src 72-82): runs the checkout-URL regex and reads the
capture groups of the result without any null check.  When the regex does not
match, `regex.exec` returns `null` and the very first property read
`matched[MATCH_COMPONENT_HOSTNAME]` throws a `TypeError`; when it matches but
the optional branch group is absent, `matched[MATCH_COMPONENT_BRANCH]` is
`undefined` and `.slice(1)` on it throws a `TypeError`.  No typed
`MalformedURLError` exists anywhere in the source. -/
def getRepoInfo (checkoutUrl : String) : Except JsError RepoInfo :=
  match checkoutUrlExec checkoutUrl with
  | none => Except.error JsError.typeError
  | some matched =>
    match matched.branchSuffix with
    | none => Except.error JsError.typeError
    | some bs =>
      Except.ok { hostname := matched.hostname, repo := matched.repo,
                  branch := jsSlice1 bs, username := matched.user }

/-- The adapter configuration fields used by the request builders
(src 103-112): protocol and host of the GitLab instance. -/
structure ScmConfig where
  gitlabProtocol : String
  gitlabHost : String
deriving DecidableEq

/-- A request handed to the circuit breaker: either an HTTP request built for
the `request` library (method, url, the bearer token of its auth option, and
query-string entries, an `undefined` query value modelled as `none`), or a
github-client style command object as built by `_decorateCommit`
(src 302-310). -/
inductive BreakerRequest where
  | http (method : String) (url : String) (bearer : String)
    (qs : List (String × Option String)) : BreakerRequest
  | command (action : String) (token : String) (params : List (String × String)) : BreakerRequest
deriving DecidableEq

/-- `STATE_MAP` (src 25-29) as the own-property lookup of the JavaScript
object literal: `undefined` (`none`) for any key not in the map. -/
def STATE_MAP (buildStatus : String) : Option String :=
  if buildStatus = "SUCCESS" then some "success"
  else if buildStatus = "RUNNING" then some "pending"
  else if buildStatus = "QUEUED" then some "pending"
  else none

/-- `DESCRIPTION_MAP` (src 30-36) as the own-property lookup of the JavaScript
object literal. -/
def DESCRIPTION_MAP (buildStatus : String) : Option String :=
  if buildStatus = "SUCCESS" then some "Everything looks good!"
  else if buildStatus = "FAILURE" then some "Did not work as expected."
  else if buildStatus = "ABORTED" then some "Aborted mid-flight"
  else if buildStatus = "RUNNING" then some "Testing your code..."
  else if buildStatus = "QUEUED" then some "Looking for a place to park..."
  else none

/-- An author decoration record `{avatar, name, username, url}` (src 357-362);
fields read off a response body may be `undefined`. -/
structure Author where
  avatar : Option Json
  name : Option Json
  username : Option Json
  url : Option Json

/-- `DEFAULT_AUTHOR` (src 12-17). -/
def DEFAULT_AUTHOR : Author :=
  { avatar := some (Json.str "https://cd.screwdriver.cd/assets/unknown_user.png"),
    name := some (Json.str "n/a"),
    username := some (Json.str "n/a"),
    url := some (Json.str "https://cd.screwdriver.cd/") }

/-- The record resolved by `lookupScmUri` (src 149-154). -/
structure ScmInfo where
  branch : Option String
  host : Option String
  repo : Option String
  owner : Option String

/-- The own properties assigned on a `GitlabScm` instance: its constructor
assigns exactly `this.config` (src 103) and `this.breaker` (src 122). -/
def gitlabScmOwnProps : List String := ["config", "breaker"]

/-- `lookupScmUri` (src 134-156).  Src 137 reads `this.Breaker` — capital B —
which is not an own property of the instance (and not a prototype member
either), so the access yields `undefined` and invoking `.runCommand` on it
throws a TypeError synchronously, before the request object is evaluated and
before any network request is attempted.  The branch guarded by the
(membership) test models what the rest of the method (src 144-155) would do if
the property existed: validate the response, then split
`response.body.path_with_namespace` — a TypeError when that field is missing
or not a string — and return the `{branch, host, repo, owner}` record. -/
def lookupScmUri (st : ScmConfig) (scmUri token : String) (resp : HTTPResponse) :
    List BreakerRequest × Except JsError ScmInfo :=
  let parts := decodeScmUri scmUri
  if "Breaker" ∈ gitlabScmOwnProps then
    let req := BreakerRequest.http "GET"
      (st.gitlabProtocol ++ "://" ++ st.gitlabHost ++ "/api/v3/projects/" ++
        optStr parts.2.1) token []
    match checkResponseError resp with
    | Except.error e => ([req], Except.error e)
    | Except.ok _ =>
      match jsGetMember resp.body "path_with_namespace" with
      | Except.error e => ([req], Except.error e)
      | Except.ok (some (Json.str s)) =>
        let pieces := jsSplit '/' s
        ([req], Except.ok { branch := parts.2.2, host := parts.1,
                            repo := pieces[1]?, owner := pieces[0]? })
      | Except.ok _ => ([req], Except.error JsError.typeError)
  else
    ([], Except.error JsError.typeError)

/-- `_parseUrl` (src 180-198): parse the checkout URL (a synchronous throw
when `getRepoInfo` throws, before any request), issue the project lookup,
validate the response, and encode `hostname:id:branch`. -/
def parseUrl (st : ScmConfig) (checkoutUrl token : String) (resp : HTTPResponse) :
    List BreakerRequest × Except JsError String :=
  match getRepoInfo checkoutUrl with
  | Except.error e => ([], Except.error e)
  | Except.ok repoInfo =>
    let req := BreakerRequest.http "GET"
      (st.gitlabProtocol ++ "://" ++ st.gitlabHost ++ "/api/v3/projects/" ++
        repoInfo.username ++ "%2F" ++ repoInfo.repo) token []
    match checkResponseError resp with
    | Except.error e => ([req], Except.error e)
    | Except.ok _ =>
      match jsGetMember resp.body "id" with
      | Except.error e => ([req], Except.error e)
      | Except.ok idv =>
        ([req], Except.ok (repoInfo.hostname ++ ":" ++ optJsonStr idv ++ ":" ++
          repoInfo.branch))

/-- The record returned by `_decorateUrl` (src 280-284). -/
structure DecoratedUrl where
  branch : Option String
  name : String
  url : String

/-- `_decorateUrl` (src 273-286): entirely driven by `lookupScmUri`, whose
synchronous TypeError (see `lookupScmUri`) it propagates. -/
def decorateUrl (st : ScmConfig) (scmUri token : String) (resp : HTTPResponse) :
    List BreakerRequest × Except JsError DecoratedUrl :=
  match lookupScmUri st scmUri token resp with
  | (reqs, Except.error e) => (reqs, Except.error e)
  | (reqs, Except.ok scmInfo) =>
    (reqs, Except.ok {
      branch := scmInfo.branch,
      name := optStr scmInfo.owner ++ "/" ++ optStr scmInfo.repo,
      url := "https://" ++ optStr scmInfo.host ++ "/" ++ optStr scmInfo.owner ++
        "/" ++ optStr scmInfo.repo ++ "/tree/" ++ optStr scmInfo.branch })

/-- The record returned by `_decorateCommit` (src 327-331). -/
structure DecoratedCommit where
  author : Author
  message : Option Json
  url : Option Json

/-- `_decorateCommit` (src 297-333).  `commitLookup` starts with
`this.lookupScmUri(...)`, which throws a TypeError synchronously (see
`lookupScmUri`), so the whole method throws before any request.  The first
component models the code after that point (src 301-332): the github-client
style `getCommit` breaker command chained on the project lookup, the
`authorLookup` chained on `commitLookup` (so an author lookup could only ever
be issued after the commit lookup resolved; the raw resolved breaker value is
a response object with no `author` property, so the author callback, src
312-321, would return `DEFAULT_AUTHOR` without issuing a user lookup), and the
join (src 323-332), which reads `commitData.commit.message` — `commit` is
likewise absent on a response object, so the member access throws a
TypeError. -/
def decorateCommit (st : ScmConfig) (scmUri sha token : String)
    (respProject _respCommit : HTTPResponse) :
    List BreakerRequest × Except JsError DecoratedCommit :=
  match lookupScmUri st scmUri token respProject with
  | (reqs, Except.error e) => (reqs, Except.error e)
  | (reqs, Except.ok scmInfo) =>
    (reqs ++ [BreakerRequest.command "getCommit" token
        [("owner", optStr scmInfo.owner), ("repo", optStr scmInfo.repo),
         ("sha", sha)]],
      Except.error JsError.typeError)

/-- `_decorateAuthor` (src 343-364): issue the user lookup, validate, then
shape `{avatar, name, username, url}` from the body (member accesses on a
`null` body throw a TypeError, on any non-object other than null they yield
`undefined`). -/
def decorateAuthor (st : ScmConfig) (username token : String) (resp : HTTPResponse) :
    List BreakerRequest × Except JsError Author :=
  let req := BreakerRequest.http "GET"
    (st.gitlabProtocol ++ "://" ++ st.gitlabHost ++ "/api/v3/users/username=" ++
      username) token []
  match checkResponseError resp with
  | Except.error e => ([req], Except.error e)
  | Except.ok _ =>
    match resp.body with
    | Json.null => ([req], Except.error JsError.typeError)
    | b =>
      ([req], Except.ok { avatar := jsGet b "avatar_url", name := jsGet b "name",
                          username := jsGet b "username", url := jsGet b "web_url" })

/-- The fixed permissions record of `_getPermissions` (src 397-401). -/
structure Permissions where
  admin : Bool
  push : Bool
  pull : Bool
deriving DecidableEq

/-- `_getPermissions` (src 374-403): project lookup, validation, then the
hard-coded full-access record. -/
def getPermissions (st : ScmConfig) (scmUri token : String) (resp : HTTPResponse) :
    List BreakerRequest × Except JsError Permissions :=
  let parts := decodeScmUri scmUri
  let req := BreakerRequest.http "GET"
    (st.gitlabProtocol ++ "://" ++ st.gitlabHost ++ "/api/v3/projects/" ++
      optStr parts.2.1) token []
  match checkResponseError resp with
  | Except.error e => ([req], Except.error e)
  | Except.ok _ => ([req], Except.ok { admin := true, push := true, pull := true })

/-- `_getCommitSha` (src 413-432): branch lookup, validation, then
`response.body.commit.id` (a TypeError when `body` is `null` or `body.commit`
is missing or unreadable). -/
def getCommitSha (st : ScmConfig) (scmUri token : String) (resp : HTTPResponse) :
    List BreakerRequest × Except JsError (Option Json) :=
  let parts := decodeScmUri scmUri
  let req := BreakerRequest.http "GET"
    (st.gitlabProtocol ++ "://" ++ st.gitlabHost ++ "/api/v3/projects/" ++
      optStr parts.2.1 ++ "/repository/branches/" ++ optStr parts.2.2) token []
  match checkResponseError resp with
  | Except.error e => ([req], Except.error e)
  | Except.ok _ =>
    match jsGetMember resp.body "commit" with
    | Except.error e => ([req], Except.error e)
    | Except.ok none => ([req], Except.error JsError.typeError)
    | Except.ok (some c) =>
      match jsGetMember c "id" with
      | Except.error e => ([req], Except.error e)
      | Except.ok v => ([req], Except.ok v)

/-- The configuration object of `updateCommitStatus` (src 437-443). -/
structure UpdateCommitStatusConfig where
  scmUri : String
  sha : String
  buildStatus : String
  token : String
  jobName : Option String
  url : String
deriving DecidableEq

/-- The `requestOptions` object built by `_updateCommitStatus` (src 450-463):
`context` is `Screwdriver/<jobName>` for a truthy `jobName` and `Screwdriver`
otherwise (src 448); `description` is the raw `DESCRIPTION_MAP` lookup
(`undefined` for an unknown build status); `state` is
`STATE_MAP[buildStatus] || 'failure'`. -/
def updateCommitStatusRequest (st : ScmConfig) (config : UpdateCommitStatusConfig) :
    BreakerRequest :=
  let parts := decodeScmUri config.scmUri
  let context : String :=
    match config.jobName with
    | some j => if j = "" then "Screwdriver" else "Screwdriver/" ++ j
    | none => "Screwdriver"
  BreakerRequest.http "POST"
    (st.gitlabProtocol ++ "://" ++ st.gitlabHost ++ "/api/v3/projects/" ++
      optStr parts.2.1 ++ "/statuses/" ++ config.sha) config.token
    [("context", some context),
     ("description", DESCRIPTION_MAP config.buildStatus),
     ("state", some (jsOrString (STATE_MAP config.buildStatus) "failure")),
     ("target_url", some config.url)]

/-- `_updateCommitStatus` (src 446-466): builds `requestOptions` and then
executes `return this.breaker(requestOptions)` (src 465).  `this.breaker` is a
`Breaker` instance (src 122), not a function, so the call throws a TypeError:
no request is issued and `checkResponseError` is never invoked on any
response — the method contains no validation step at all. -/
def updateCommitStatus (st : ScmConfig) (config : UpdateCommitStatusConfig)
    (_resp : HTTPResponse) : List BreakerRequest × Except JsError HTTPResponse :=
  let _requestOptions := updateCommitStatusRequest st config
  ([], Except.error JsError.typeError)

/-- The configuration object of `getFile` (src 472-476). -/
structure GetFileConfig where
  scmUri : String
  path : String
  token : String
  ref : Option String
deriving DecidableEq

/-- `_getFile` (src 479-501).  Building `requestOptions` evaluates
`config.ref || scmInfo.branch` (src 491): when `config.ref` is falsy the
fallback reads `scmInfo`, an identifier that is declared nowhere in the
method, so a ReferenceError is thrown while the options are being built.
When `config.ref` is truthy the options are built, but src 495 then invokes
`this.breaker(requestOptions)` — a `Breaker` instance, not a function — which
throws a TypeError: no request is issued and the `.then` chain containing
`checkResponseError` and the base64 decode (src 496-500) is never installed.
Had the call succeeded, the chain is in any case not preceded by `return`,
so the method would have returned `undefined` (`Except.ok ()` in this
model — an outcome the method can never actually produce). -/
def getFile (st : ScmConfig) (config : GetFileConfig) (_resp : HTTPResponse) :
    List BreakerRequest × Except JsError Unit :=
  let parts := decodeScmUri config.scmUri
  if jsTruthyOpt config.ref then
    let _requestOptions := BreakerRequest.http "GET"
      (st.gitlabProtocol ++ "://" ++ st.gitlabHost ++ "/api/v3/projects/" ++
        optStr parts.2.1 ++ "/repository/files") config.token
      [("file_path", some config.path), ("ref", config.ref)]
    ([], Except.error JsError.typeError)
  else
    ([], Except.error JsError.referenceError)

theorem splitOnCharAux_no_sep (sep : Char) :
    ∀ l : List Char, sep ∉ l → splitOnCharAux sep l = [l]
  | [], _ => rfl
  | c :: rest, h => by
    have hc : ¬ c = sep := fun e => h (e ▸ List.mem_cons_self c rest)
    have hr : sep ∉ rest := fun m => h (List.mem_cons_of_mem _ m)
    simp only [splitOnCharAux, if_neg hc, splitOnCharAux_no_sep sep rest hr]

theorem splitOnCharAux_append (sep : Char) :
    ∀ (a rest : List Char), sep ∉ a →
      splitOnCharAux sep (a ++ sep :: rest) = a :: splitOnCharAux sep rest
  | [], rest, _ => by simp [splitOnCharAux]
  | c :: a', rest, h => by
    have hc : ¬ c = sep := fun e => h (e ▸ List.mem_cons_self c a')
    have ha : sep ∉ a' := fun m => h (List.mem_cons_of_mem _ m)
    simp only [List.cons_append, splitOnCharAux, if_neg hc, List.append_eq,
      splitOnCharAux_append sep a' rest ha]

theorem jsSplit_encodeScmUri (host projectId branch : String)
    (hh : ':' ∉ host.data) (hp : ':' ∉ projectId.data) (hb : ':' ∉ branch.data) :
    jsSplit ':' (encodeScmUri host projectId branch) = [host, projectId, branch] := by
  have hdata : (encodeScmUri host projectId branch).data =
      host.data ++ ':' :: (projectId.data ++ ':' :: branch.data) := by
    simp [encodeScmUri, String.data_append]
  unfold jsSplit
  rw [hdata, splitOnCharAux_append _ _ _ hh, splitOnCharAux_append _ _ _ hp,
    splitOnCharAux_no_sep _ _ hb]
  rfl

/-- C2: encoding a host/projectId/branch triple whose fields are non-empty and
colon-free and then decoding the result yields the original triple. -/
theorem scmUri_roundtrip (host projectId branch : String)
    (hh : host ≠ "" ∧ ':' ∉ host.data)
    (hp : projectId ≠ "" ∧ ':' ∉ projectId.data)
    (hb : branch ≠ "" ∧ ':' ∉ branch.data) :
    decodeScmUri (encodeScmUri host projectId branch) =
      (some host, some projectId, some branch) := by
  unfold decodeScmUri
  rw [jsSplit_encodeScmUri host projectId branch hh.2 hp.2 hb.2]

/-- C2 witness: round-trip at a concrete triple. -/
theorem scmUri_roundtrip_witness :
    decodeScmUri (encodeScmUri "gitlab.com" "12345" "main") =
      (some "gitlab.com", some "12345", some "main") :=
  scmUri_roundtrip "gitlab.com" "12345" "main"
    (by constructor <;> decide) (by constructor <;> decide) (by constructor <;> decide)

/-- C3 counterexample: a two-field SCM URI does not fail with any error — the
decoder silently produces a partial result with the third field `undefined`.
No `MalformedURIError` (nor any other field-count check) exists in the
source. -/
theorem decodeScmUri_partial_counterexample :
    decodeScmUri "gitlab.com:12345" = (some "gitlab.com", some "12345", none) := rfl

/-- C3 amended: for every input whose colon-separated field count is not 3,
decoding does not fail; it silently yields the first three fields positionally,
missing trailing fields being `undefined` (`none`) and extra fields being
dropped. -/
theorem decodeScmUri_wrong_count_silent (uri : String)
    (_h : (jsSplit ':' uri).length ≠ 3) :
    decodeScmUri uri =
      ((jsSplit ':' uri)[0]?, (jsSplit ':' uri)[1]?, (jsSplit ':' uri)[2]?) := by
  unfold decodeScmUri
  rcases hsplit : jsSplit ':' uri with _ | ⟨a, _ | ⟨b, _ | ⟨c, rest⟩⟩⟩ <;> simp

/-- C3 amended witness: the amended statement applied at a concrete four-field
input (the extra field is dropped). -/
theorem decodeScmUri_wrong_count_silent_witness :
    decodeScmUri "gitlab.com:1:main:extra" =
      ((jsSplit ':' "gitlab.com:1:main:extra")[0]?,
       (jsSplit ':' "gitlab.com:1:main:extra")[1]?,
       (jsSplit ':' "gitlab.com:1:main:extra")[2]?) :=
  decodeScmUri_wrong_count_silent "gitlab.com:1:main:extra" (by decide)

theorem checkoutPathMatch_shape (path : List Char) (bt : Option (List Char))
    (m : CheckoutMatch) (h : checkoutPathMatch path bt = some m) :
    m.branchSuffix = bt.map (fun t => String.mk ('#' :: t)) := by
  unfold checkoutPathMatch at h
  split at h
  · split at h
    · exact absurd h (by simp)
    · cases h
      rfl
  · exact absurd h (by simp)

theorem checkoutUrlExec_suffix_shape (url : String) (m : CheckoutMatch)
    (hm : checkoutUrlExec url = some m) :
    m.branchSuffix = none ∨
      ∃ tl, tl ≠ [] ∧ m.branchSuffix = some (String.mk ('#' :: tl)) := by
  unfold checkoutUrlExec at hm
  split at hm
  · exact absurd hm (by simp)
  · split at hm
    · exact absurd hm (by simp)
    · split at hm
      · left
        simpa using checkoutPathMatch_shape _ _ _ hm
      · rename_i path after heq
        split at hm
        · exact absurd hm (by simp)
        · rename_i hafter
          right
          exact ⟨after, hafter, by simpa using checkoutPathMatch_shape _ _ _ hm⟩

/-- C4 counterexample: at a checkout URL that does not match the pattern, the
parser does not raise a typed `MalformedURLError` — it crashes with the
`TypeError` of reading a property of the `null` returned by `regex.exec`. -/
theorem getRepoInfo_unmatched_counterexample :
    getRepoInfo "banana" = Except.error JsError.typeError := rfl

/-- C4 amended: for every checkout URL that the checkout-URL pattern does not
match, `getRepoInfo` throws a `TypeError` (a null-dereference of the `exec`
result); no typed `MalformedURLError` is raised (none exists in the source). -/
theorem getRepoInfo_unmatched_typeerror (url : String)
    (h : checkoutUrlExec url = none) :
    getRepoInfo url = Except.error JsError.typeError := by
  unfold getRepoInfo
  rw [h]

/-- C4 amended witness: the amended statement applied at the empty string,
which the pattern does not match. -/
theorem getRepoInfo_unmatched_typeerror_witness :
    getRepoInfo "" = Except.error JsError.typeError :=
  getRepoInfo_unmatched_typeerror "" rfl

/-- C5 counterexample: at a checkout URL that matches the pattern but carries
no `#branchRef` suffix, the parser does not fall back to any configured
default branch — `matched[4]` is `undefined` and `.slice(1)` on it throws a
`TypeError` (no default-branch configuration exists in the source). -/
theorem getRepoInfo_no_suffix_counterexample :
    getRepoInfo "https://gitlab.com/grp/proj" = Except.error JsError.typeError := rfl

/-- C5 amended: for every checkout URL the pattern matches, when the
`#branchRef` suffix (capture group 4) is present the parsed `branch` is
exactly the portion of the suffix after the leading `#`; when the suffix is
absent `getRepoInfo` throws a `TypeError` instead of applying a default
branch. -/
theorem getRepoInfo_branch_mapping (url : String) (m : CheckoutMatch)
    (hm : checkoutUrlExec url = some m) :
    (∀ bs, m.branchSuffix = some bs → ∃ t, bs = "#" ++ t ∧
      getRepoInfo url =
        Except.ok { hostname := m.hostname, repo := m.repo, branch := t,
                    username := m.user }) ∧
    (m.branchSuffix = none → getRepoInfo url = Except.error JsError.typeError) := by
  constructor
  · intro bs hbs
    rcases checkoutUrlExec_suffix_shape url m hm with hnone | ⟨tl, htl, hsome⟩
    · rw [hnone] at hbs
      exact absurd hbs (by simp)
    · rw [hsome] at hbs
      obtain rfl : bs = String.mk ('#' :: tl) := (Option.some.inj hbs).symm
      refine ⟨String.mk tl, ?_, ?_⟩
      · apply String.ext
        simp [String.data_append]
      · simp [getRepoInfo, hm, hsome, jsSlice1]
  · intro hnone
    simp [getRepoInfo, hm, hnone]

/-- C5 amended witness: the amended statement applied at a concrete matching
URL with branch suffix `#dev`. -/
theorem getRepoInfo_branch_mapping_witness :
    ∃ t, ("#dev" : String) = "#" ++ t ∧
      getRepoInfo "https://gitlab.com/grp/proj#dev" =
        Except.ok { hostname := "gitlab.com", repo := "proj", branch := t,
                    username := "grp" } := by
  obtain ⟨hsome, _⟩ :=
    getRepoInfo_branch_mapping "https://gitlab.com/grp/proj#dev"
      { hostname := "gitlab.com", user := "grp", repo := "proj",
        branchSuffix := some "#dev" } rfl
  exact hsome "#dev" rfl

/-- C6: the commit-status request built by `_updateCommitStatus` carries
`state` mapped through STATE_MAP (`success` for SUCCESS, `pending` for
RUNNING/QUEUED, `failure` for anything else), its `description` is the
DESCRIPTION_MAP lookup (so SUCCESS maps to `Everything looks good!`), and its
`context` is `Screwdriver/<jobName>` when a (non-empty) `jobName` is given and
`Screwdriver` when it is absent. -/
theorem updateCommitStatus_request_mapping (st : ScmConfig)
    (cfg : UpdateCommitStatusConfig) :
    ∃ u qs, updateCommitStatusRequest st cfg =
        BreakerRequest.http "POST" u cfg.token qs ∧
      (cfg.buildStatus = "SUCCESS" →
        ("state", some "success") ∈ qs ∧
        ("description", some "Everything looks good!") ∈ qs) ∧
      ((cfg.buildStatus = "RUNNING" ∨ cfg.buildStatus = "QUEUED") →
        ("state", some "pending") ∈ qs) ∧
      (cfg.buildStatus ≠ "SUCCESS" → cfg.buildStatus ≠ "RUNNING" →
        cfg.buildStatus ≠ "QUEUED" → ("state", some "failure") ∈ qs) ∧
      ("description", DESCRIPTION_MAP cfg.buildStatus) ∈ qs ∧
      (∀ j, cfg.jobName = some j → j ≠ "" →
        ("context", some ("Screwdriver/" ++ j)) ∈ qs) ∧
      (cfg.jobName = none → ("context", some "Screwdriver") ∈ qs) := by
  refine ⟨_, _, rfl, ?_, ?_, ?_, ?_, ?_, ?_⟩
  · intro h
    constructor
    · simp [h, STATE_MAP, jsOrString]
    · simp [h, DESCRIPTION_MAP]
  · rintro (h | h) <;> simp [h, STATE_MAP, jsOrString]
  · intro h1 h2 h3
    simp [STATE_MAP, jsOrString, h1, h2, h3]
  · simp
  · intro j hj hne
    simp [hj, hne]
  · intro hj
    simp [hj]

/-- C6 witness: the mapping applied at a concrete SUCCESS update with a job
name. -/
theorem updateCommitStatus_request_mapping_witness :
    ∃ u qs, updateCommitStatusRequest ⟨"https", "gitlab.com"⟩
        ⟨"gitlab.com:42:main", "abcdef", "SUCCESS", "tok", some "main-job",
         "https://sd/build/1"⟩ = BreakerRequest.http "POST" u "tok" qs ∧
      ("state", some "success") ∈ qs ∧
      ("description", some "Everything looks good!") ∈ qs ∧
      ("context", some "Screwdriver/main-job") ∈ qs := by
  obtain ⟨u, qs, heq, hS, _, _, _, hJ, _⟩ :=
    updateCommitStatus_request_mapping ⟨"https", "gitlab.com"⟩
      ⟨"gitlab.com:42:main", "abcdef", "SUCCESS", "tok", some "main-job",
       "https://sd/build/1"⟩
  exact ⟨u, qs, heq, (hS rfl).1, (hS rfl).2, hJ "main-job" rfl (by decide)⟩

/-- C7 (code bug): evaluating `decorateCommit` at a concrete, perfectly
healthy invocation — a well-formed SCM URI and a 200 project response — shows
that it throws a `TypeError` before issuing a single breaker request: the
`this.Breaker` typo of src 137 fires inside `lookupScmUri` before the commit
lookup can ever resolve, so the claimed default-author behaviour and
commit-then-author ordering are unreachable. -/
theorem decorateCommit_failing_eval :
    decorateCommit ⟨"https", "gitlab.example.com"⟩ "gitlab.example.com:42:main"
      "abcdef0" "token"
      ⟨200, Json.obj [("path_with_namespace", Json.str "grp/proj")]⟩
      ⟨200, Json.obj [("author", Json.null)]⟩
      = ([], Except.error JsError.typeError) := rfl

/-- C8 counterexample: `_updateCommitStatus` on a non-2xx response with a
structured error body.  The operation issues no request at all and throws the
`TypeError` of calling `this.breaker` — it never runs `checkResponseError`,
whose classified rejection for that same response is shown alongside. -/
theorem updateCommitStatus_skips_validation :
    updateCommitStatus ⟨"https", "gitlab.com"⟩
      ⟨"gitlab.com:42:main", "abcdef", "FAILURE", "tok", none, "u"⟩
      ⟨500, Json.obj [("error", Json.obj [("message", Json.str "boom")])]⟩
      = ([], Except.error JsError.typeError) ∧
    checkResponseError
      ⟨500, Json.obj [("error", Json.obj [("message", Json.str "boom")])]⟩
      = Except.error
          (JsError.error "boom Reason \"\x7b\"error\":\x7b\"message\":\"boom\"\x7d\x7d\"") :=
  ⟨rfl, rfl⟩

/-- C8 amended: the four operations that issue a working gateway call
(`_parseUrl`, `_decorateAuthor`, `_getPermissions`, `_getCommitSha`) run
`checkResponseError` directly on the resolved response before shaping, so a
non-2xx response makes each of them reject with exactly the validator's
classified error; `_updateCommitStatus` instead throws a `TypeError` without
issuing any request and never produces the validator's rejection, and
`_getFile` likewise throws (a `TypeError`, or a `ReferenceError` when no ref
is given) without issuing any request, so neither ever rejects with the
validator's error. -/
theorem operations_validate_or_skip (st : ScmConfig) (resp : HTTPResponse)
    (e : JsError) (he : checkResponseError resp = Except.error e) :
    (∀ cu tok ri, getRepoInfo cu = Except.ok ri →
      (parseUrl st cu tok resp).2 = Except.error e) ∧
    (∀ u tok, (decorateAuthor st u tok resp).2 = Except.error e) ∧
    (∀ s tok, (getPermissions st s tok resp).2 = Except.error e) ∧
    (∀ s tok, (getCommitSha st s tok resp).2 = Except.error e) ∧
    (∀ cfg, updateCommitStatus st cfg resp =
      ([], Except.error JsError.typeError) ∧ JsError.typeError ≠ e) ∧
    (∀ cfg, (getFile st cfg resp).1 = [] ∧ (getFile st cfg resp).2 ≠ Except.error e) := by
  have hshape : ∃ msg, e = JsError.error msg := by
    unfold checkResponseError at he
    split at he
    · exact absurd he (by simp)
    · exact ⟨_, (Except.error.inj he).symm⟩
  obtain ⟨msg, rfl⟩ := hshape
  refine ⟨?_, ?_, ?_, ?_, ?_, ?_⟩
  · intro cu tok ri hri
    simp [parseUrl, hri, he]
  · intro u tok
    simp [decorateAuthor, he]
  · intro s tok
    simp [getPermissions, he]
  · intro s tok
    simp [getCommitSha, he]
  · intro cfg
    exact ⟨rfl, by simp⟩
  · intro cfg
    unfold getFile
    cases h : jsTruthyOpt cfg.ref <;> simp [h]

/-- C8 amended witness: the amended statement applied at a concrete 500
response: `_decorateAuthor` rejects with the validator's classified error
while `_updateCommitStatus` throws its TypeError without validating. -/
theorem operations_validate_or_skip_witness :
    (decorateAuthor ⟨"https", "gitlab.com"⟩ "bob" "tok" ⟨500, Json.null⟩).2 =
      Except.error (JsError.error "SCM service unavailable (500). Reason \"null\"") ∧
    updateCommitStatus ⟨"https", "gitlab.com"⟩
      ⟨"gitlab.com:42:main", "abcdef", "SUCCESS", "tok", none, "u"⟩
      ⟨500, Json.null⟩ = ([], Except.error JsError.typeError) := by
  have h := operations_validate_or_skip ⟨"https", "gitlab.com"⟩ ⟨500, Json.null⟩
    (JsError.error "SCM service unavailable (500). Reason \"null\"") rfl
  exact ⟨h.2.1 "bob" "tok",
    (h.2.2.2.2.1 ⟨"gitlab.com:42:main", "abcdef", "SUCCESS", "tok", none, "u"⟩).1⟩

/-- C9: `lookupScmUri` reads `this.Breaker`, a property the constructor never
assigns (it assigns `this.breaker`, src 122), so every call — for every
configuration, SCM URI, token and would-be response — throws a `TypeError`
having issued no breaker request at all (no network request is attempted); and
`decorateUrl` and `decorateCommit`, which both start with `lookupScmUri`,
fail identically. -/
theorem lookupScmUri_breaker_typo (st : ScmConfig)
    (scmUri sha token : String) (respA respB : HTTPResponse) :
    lookupScmUri st scmUri token respA = ([], Except.error JsError.typeError) ∧
    decorateUrl st scmUri token respA = ([], Except.error JsError.typeError) ∧
    decorateCommit st scmUri sha token respA respB =
      ([], Except.error JsError.typeError) :=
  ⟨rfl, rfl, rfl⟩

/-- C10 counterexample: `_getFile` at a concrete call with an explicit ref and
a healthy 200 response carrying file content: it neither returns the promise
of decoded content nor returns `undefined` (`Except.ok ()` here) — it throws
the `TypeError` of calling the non-function `this.breaker`, having issued no
request. -/
theorem getFile_throws_counterexample :
    getFile ⟨"https", "gitlab.com"⟩
      ⟨"gitlab.com:42:main", "screwdriver.yaml", "tok", some "main"⟩
      ⟨200, Json.obj [("content", Json.str "aGVsbG8="),
                      ("encoding", Json.str "base64")]⟩
      = ([], Except.error JsError.typeError) := rfl

/-- C10 amended: every `_getFile` call issues no request and throws before the
promise chain exists — a `TypeError` (non-callable `this.breaker`) when a ref
is given, a `ReferenceError` (the undeclared `scmInfo` of src 491) when it is
not — so neither file text nor any provider failure is ever delivered to the
caller, and the `undefined` return of the un-returned chain is never even
reached. -/
theorem getFile_never_delivers (st : ScmConfig) (cfg : GetFileConfig)
    (resp : HTTPResponse) :
    (getFile st cfg resp).1 = [] ∧
    (getFile st cfg resp).2 = Except.error
      (if jsTruthyOpt cfg.ref then JsError.typeError else JsError.referenceError) := by
  unfold getFile
  cases h : jsTruthyOpt cfg.ref <;> simp [h]

/-- C1: `checkResponseError(response)` returns without throwing if and only if
`response.statusCode` is in [200,300); for every response outside that range
it throws an error whose message is `<errorMessage> Reason "<errorReason>"`,
where `errorMessage` is `body.error.message` when that field is reachable and
falls back to `SCM service unavailable (<statusCode>).` otherwise, and
`errorReason` is `body.error.detail.required` when reachable and falls back to
the JSON-stringified response body otherwise. -/
theorem checkResponseError_contract (r : HTTPResponse) :
    (checkResponseError r = Except.ok () ↔
      200 ≤ r.statusCode ∧ r.statusCode < 300) ∧
    (∀ e, checkResponseError r = Except.error e →
      ∃ em er, e = JsError.error (em ++ " Reason \"" ++ er ++ "\"") ∧
        (hoekReach r.body ["error", "message"] = none →
          em = "SCM service unavailable (" ++ toString r.statusCode ++ ").") ∧
        (∀ v, hoekReach r.body ["error", "message"] = some v → em = jsToString v) ∧
        (hoekReach r.body ["error", "detail", "required"] = none →
          er = jsonStringify r.body) ∧
        (∀ v, hoekReach r.body ["error", "detail", "required"] = some v →
          er = jsToString v)) := by
  constructor
  · unfold checkResponseError
    split
    · rename_i hcond
      simpa using hcond
    · rename_i hcond
      constructor
      · intro h
        exact absurd h (by simp)
      · intro hc
        exact absurd hc hcond
  · intro e he
    unfold checkResponseError at he
    split at he
    · exact absurd he (by simp)
    · rename_i hcond
      refine ⟨(match hoekReach r.body ["error", "message"] with
               | some v => jsToString v
               | none => "SCM service unavailable (" ++ toString r.statusCode ++ ")."),
              (match hoekReach r.body ["error", "detail", "required"] with
               | some v => jsToString v
               | none => jsonStringify r.body), ?_, ?_, ?_, ?_, ?_⟩
      · exact (Except.error.inj he).symm
      · intro h
        rw [h]
      · intro v h
        rw [h]
      · intro h
        rw [h]
      · intro v h
        rw [h]

/-- C1 witness: the contract applied at a concrete failing response with no
structured error fields. -/
theorem checkResponseError_contract_witness :
    ∃ em er,
      JsError.error "SCM service unavailable (503). Reason \"null\"" =
        JsError.error (em ++ " Reason \"" ++ er ++ "\"") ∧
      em = "SCM service unavailable (503)." ∧ er = "null" := by
  obtain ⟨em, er, he, hm, _, hr, _⟩ :=
    (checkResponseError_contract ⟨503, Json.null⟩).2
      (JsError.error "SCM service unavailable (503). Reason \"null\"") rfl
  exact ⟨em, er, he, hm rfl, hr rfl⟩
